import Mathlib

/-!
Verification of the OMR-sheet application's core logic (`script.js`).

The JavaScript module keeps its state in module-level variables
(`totalQuestions`, `correctMarks`, `wrongMarks`, `answerKey`,
`startTime`, `timerInterval`, `isGraded`) plus the DOM (radio buttons
for responses, the manual-key text field, the results panel).  We embed
that state as the structure `OMR.AppState` and each event handler as a
function on it.

Modelling conventions:
  * `parseInt` / `parseFloat` results are `Option Int` / `Option ℚ`
    (`none` = `NaN` from non-numeric input, or an empty field).
  * The answer key, a JS object with integer-like keys, is an
    association list with distinct keys; assignment is `jsSet`
    (overwrite-or-append) and indexing is `List.lookup`.
  * Responses live in the DOM radio rows; we model them as a
    `List (Option Char)` (index `i-1` holds question `i`), with the
    global disabled flag `locked` standing for the radios' `disabled`
    attribute, which `gradeSheet` sets on every input.
  * Wall-clock reads (`Date.now()`) become an explicit `now : Int`
    argument (epoch milliseconds).
-/

namespace OMR

/-- Per-question outcome, as rendered by the `correct`/`incorrect` row
classes (and no class for an unanswered row). -/
inductive Verdict where
  | correctV
  | incorrectV
  | unansweredV
deriving Repr, DecidableEq

/-- Errors surfaced through `showError` that the claims talk about. -/
inductive AppError where
  | configInvalid
  | noValidEntries
deriving Repr, DecidableEq

/-- Tallies accumulated by the `gradeSheet` loop. -/
structure GradeTally where
  correct : Nat
  incorrect : Nat
  unanswered : Nat
deriving Repr, DecidableEq

/-- What the score panel shows: weighted marks when a scheme was
configured (`correctMarks !== null`), raw counts otherwise. -/
inductive ScoreDisplay where
  | marks (totalScore maxScore gained lost : ℚ)
  | raw (correct total : Nat)
deriving Repr, DecidableEq

/-- Result attached to the results panel by one grading pass. -/
structure GradeOutcome where
  tally : GradeTally
  display : ScoreDisplay
deriving Repr, DecidableEq

/-- The module-level state of `script.js` together with the DOM state
the handlers read and write. -/
structure AppState where
  totalQuestions : Nat
  correctMarks : Option ℚ
  wrongMarks : Option ℚ
  answerKey : List (Int × Char)
  responses : List (Option Char)
  manualKeyInput : String
  isGraded : Bool
  locked : Bool
  startTime : Int
  timerRunning : Bool
  timeTaken : Option Int
  lastResult : Option GradeOutcome
deriving Repr, DecidableEq

/-- The state on page load: every module variable at its initialiser
(`totalQuestions = 0`, marks `null`, `answerKey = {}`, `startTime = 0`,
no rows, nothing graded). -/
def initialState : AppState :=
  { totalQuestions := 0
    correctMarks := none
    wrongMarks := none
    answerKey := []
    responses := []
    manualKeyInput := ""
    isGraded := false
    locked := false
    startTime := 0
    timerRunning := false
    timeTaken := none
    lastResult := none }

/-- JS object assignment `key[q] = c`: overwrite the entry if the key is
present, otherwise add it.  Keeps keys distinct, so the list length is
`Object.keys(key).length`. -/
def jsSet (l : List (Int × Char)) (q : Int) (c : Char) : List (Int × Char) :=
  if (l.lookup q).isSome then
    l.map (fun p => if p.1 = q then (q, c) else p)
  else
    l ++ [(q, c)]

/-- The whitespace class shared by `String.prototype.trim` and the
regex `\s` (ASCII part, which is all the application ever feeds it). -/
def jsWS (c : Char) : Bool :=
  c == ' ' || c == '\t' || c == '\n' || c == '\r' ||
    c == '\x0b' || c == '\x0c'

/-- String.prototype.toUpperCase restricted to ASCII. -/
def jsToUpper (s : String) : String :=
  ⟨s.data.map Char.toUpper⟩

/-- String.prototype.trim: strip whitespace from both ends. -/
def jsTrim (s : String) : String :=
  ⟨((s.data.dropWhile jsWS).reverse.dropWhile jsWS).reverse⟩

/-- The normalisation `value.trim().toUpperCase()` applied to the
manual-key field at the start of `handleCheckAnswers`. -/
def normalizeManual (s : String) : String :=
  jsToUpper (jsTrim s)

/-- Conversion of the typed key string to the key object:
`for (let i = 0; i < manualKey.length; i++) answerKey[i+1] = manualKey[i]`. -/
def keyFromString (m : String) : List (Int × Char) :=
  m.toList.enum.map (fun p => (((p.1 : Int) + 1), p.2))

/-- The `wrongMarks` configuration step: parse result stored as-is,
except a strictly positive value is flipped to its negative
(`if (wrongMarks !== null && wrongMarks > 0) wrongMarks = -wrongMarks`). -/
def normalizeWrong : Option ℚ → Option ℚ
  | none => none
  | some w => if 0 < w then some (-w) else some w

/-- The `wrongMarks || 0` read used by the scoring lines: `null` (and a
stored `0`) both contribute `0`. -/
def wrongOrZero : Option ℚ → ℚ
  | none => 0
  | some w => w

/-- The `generateOMRSheet` handler.  `countInput` is the `parseInt`
result of the question-count field (`none` for `NaN`); `cmInput` and
`wmInput` are the `parseFloat` results of the marks fields (`none` for
an empty field).  Invalid counts show the 1..200 error and leave every
module variable and the DOM untouched; otherwise the sheet is rebuilt
with fresh unanswered rows, `resetOMRState` clears the key, the manual
field and the graded flag, and `startTimer` records `now`. -/
def generateOMRSheet (countInput : Option Int) (cmInput wmInput : Option ℚ)
    (now : Int) (s : AppState) : AppState × Option AppError :=
  match countInput with
  | none => (s, some .configInvalid)
  | some k =>
    if k < 1 ∨ 200 < k then
      (s, some .configInvalid)
    else
      ({ totalQuestions := k.toNat
         correctMarks := cmInput
         wrongMarks := normalizeWrong wmInput
         answerKey := []
         responses := List.replicate k.toNat none
         manualKeyInput := ""
         isGraded := false
         locked := false
         startTime := now
         timerRunning := true
         timeTaken := s.timeTaken
         lastResult := none }, none)

/-- A click on a choice bubble: sets question `i`'s radio when the
inputs are enabled; a disabled (graded) sheet ignores it. -/
def selectResponse (i : Nat) (c : Char) (s : AppState) : AppState :=
  if s.locked then s
  else { s with responses := s.responses.set (i - 1) (some c) }

/-- The `stopTimer` function: clear the interval and render
`Date.now() - startTime` as the time taken. -/
def stopTimer (now : Int) (s : AppState) : AppState :=
  { s with timerRunning := false, timeTaken := some (now - s.startTime) }

/-- One iteration of the `gradeSheet` loop for question `i`: no checked
radio bumps `unanswered`; a checked value equal to `answerKey[i]` bumps
`correct`; anything else (including `answerKey[i]` being absent, the
`undefined` comparison) bumps `incorrect`. -/
def gradeStep (key : List (Int × Char)) (resp : List (Option Char))
    (t : GradeTally) (i : Nat) : GradeTally :=
  match resp.getD (i - 1) none with
  | none => { t with unanswered := t.unanswered + 1 }
  | some v =>
    if key.lookup (i : Int) = some v then
      { t with correct := t.correct + 1 }
    else
      { t with incorrect := t.incorrect + 1 }

/-- The `for (let i = 1; i <= totalQuestions; i++)` tally loop of
`gradeSheet`, by recursion on the upper bound. -/
def gradeLoop (key : List (Int × Char)) (resp : List (Option Char)) :
    Nat → GradeTally
  | 0 => ⟨0, 0, 0⟩
  | n + 1 => gradeStep key resp (gradeLoop key resp n) (n + 1)

/-- The verdict `gradeSheet` renders on row `i` (the branch that picks
which counter to bump and which class to add). -/
def rowVerdict (key : List (Int × Char)) (resp : List (Option Char))
    (i : Nat) : Verdict :=
  match resp.getD (i - 1) none with
  | none => .unansweredV
  | some v => if key.lookup (i : Int) = some v then .correctV else .incorrectV

/-- The score panel: with a configured scheme,
`totalScore = correct*correctMarks + incorrect*(wrongMarks || 0)` and
`maxScore = totalQuestions*correctMarks`; otherwise `correct / total`. -/
def scoreDisplay (n : Nat) (cm wm : Option ℚ) (t : GradeTally) : ScoreDisplay :=
  match cm with
  | some c =>
    .marks (t.correct * c + t.incorrect * wrongOrZero wm) (n * c)
      (t.correct * c) (t.incorrect * wrongOrZero wm)
  | none => .raw t.correct n

/-- The `gradeSheet` function: stop the timer, set `isGraded`, disable
every radio (freezing the responses), tally the questions and publish
the score panel. -/
def gradeSheet (now : Int) (s : AppState) : AppState :=
  let s₁ := stopTimer now s
  let t := gradeLoop s.answerKey s.responses s.totalQuestions
  { s₁ with
    isGraded := true
    locked := true
    lastResult :=
      some ⟨t, scoreDisplay s.totalQuestions s.correctMarks s.wrongMarks t⟩ }

/-- How a `handleCheckAnswers` click resolves. -/
inductive CheckOutcome where
  | graded
  | lengthMismatch (expected actual : Nat)
  | cardinalityMismatch (expected actual : Nat)
  | confirmPrompt
deriving Repr, DecidableEq

/-- The `handleCheckAnswers` handler.  A non-empty (trimmed, uppercased)
manual key must match `totalQuestions` in length — otherwise the
"Manual key has N answers, but there are M questions" error fires and
nothing changes — and on success it replaces the stored key wholesale
before grading.  With no manual key, a stored key of the wrong
cardinality fires the "Uploaded key" error; a matching one grades; no
key at all opens the confirmation modal. -/
def handleCheckAnswers (now : Int) (s : AppState) : AppState × CheckOutcome :=
  let m := normalizeManual s.manualKeyInput
  if m.length ≠ 0 then
    if m.length ≠ s.totalQuestions then
      (s, .lengthMismatch s.totalQuestions m.length)
    else
      (gradeSheet now { s with answerKey := keyFromString m }, .graded)
  else if 0 < s.answerKey.length then
    if s.answerKey.length ≠ s.totalQuestions then
      (s, .cardinalityMismatch s.totalQuestions s.answerKey.length)
    else
      (gradeSheet now s, .graded)
  else
    (s, .confirmPrompt)

/-- One row of the spreadsheet in `parseAnswerKeyFromExcel`: the first
cell is the `parseInt(row[0], 10)` result (`none` for `NaN`), the
second is `String(row[1])`.  A row is accepted when the number parsed
and the trimmed, uppercased letter is exactly one of A/B/C/D. -/
def excelRow (row : Option Int × String) : Option (Int × Char) :=
  match row.1 with
  | none => none
  | some q =>
    let a := jsToUpper (jsTrim row.2)
    if a = "A" then some (q, 'A')
    else if a = "B" then some (q, 'B')
    else if a = "C" then some (q, 'C')
    else if a = "D" then some (q, 'D')
    else none

/-- One step of the `data.forEach` loop of `parseAnswerKeyFromExcel`:
an accepted row writes into `newKey` (object assignment) and bumps
`parsedCount`; a malformed row is skipped. -/
def excelStep (acc : List (Int × Char) × Nat) (row : Option Int × String) :
    List (Int × Char) × Nat :=
  match excelRow row with
  | some (q, c) => (jsSet acc.1 q c, acc.2 + 1)
  | none => acc

/-- The whole accumulation pass of `parseAnswerKeyFromExcel`, starting
from an empty `newKey` and a zero `parsedCount`. -/
def excelFold (rows : List (Option Int × String)) : List (Int × Char) × Nat :=
  rows.foldl excelStep ([], 0)

/-- The `parseAnswerKeyFromExcel` function: with at least one accepted
row the new key replaces the stored one and the manual field is
cleared; with none, the "Could not find valid answers" error fires and
nothing changes. -/
def parseAnswerKeyFromExcel (rows : List (Option Int × String))
    (s : AppState) : AppState × Option AppError :=
  let r := excelFold rows
  if 0 < r.2 then
    ({ s with answerKey := r.1, manualKeyInput := "" }, none)
  else
    (s, some .noValidEntries)

/-- The `\d` class of the key-extraction regex. -/
def isDigitChar (c : Char) : Bool := c.isDigit

/-- The `\w` class (for the trailing `\b` word boundary). -/
def jsWordChar (c : Char) : Bool :=
  c.isAlpha || c.isDigit || c == '_'

/-- The optional separator class `[:.-]`. -/
def isSepChar (c : Char) : Bool :=
  c == ':' || c == '.' || c == '-'

/-- The choice class `[A-D]` — uppercase only: the regex carries no `i`
flag. -/
def isChoiceLetter (c : Char) : Bool :=
  'A' ≤ c && c ≤ 'D'

/-- Numeric value of the digit run captured by `(\d+)`, as
`parseInt(match[1], 10)` computes it. -/
def digitsVal (ds : List Char) : Nat :=
  ds.foldl (fun n c => 10 * n + (c.toNat - 48)) 0

/-- The `[:.-]?\s*` part of the pattern: after the first whitespace
run, consume at most one separator and the whitespace behind it.  (The
character classes of the pattern are pairwise disjoint, so the regex
engine's backtracking never revisits this choice: if the next character
is a separator the only way forward is to take it.) -/
def afterSep (r : List Char) : List Char :=
  match r with
  | c :: t => if isSepChar c then t.dropWhile jsWS else r
  | [] => r

/-- The `([A-D])\b` tail of the pattern: one uppercase choice letter
followed by a non-word character or by the end of input. -/
def matchTail (ds : List Char) (r : List Char) : Option (Nat × Char × List Char) :=
  match r with
  | c :: t =>
    if isChoiceLetter c then
      match t with
      | [] => some (digitsVal ds, c, t)
      | d :: _ => if jsWordChar d then none else some (digitsVal ds, c, t)
    else none
  | [] => none

/-- Matching `(\d+)\s*[:.-]?\s*([A-D])\b` anchored at the head of `cs`:
maximal digits, maximal whitespace, at most one separator, maximal
whitespace, one uppercase choice letter, then the word boundary.
Greedy backtracking collapses to this deterministic reading because the
classes involved are pairwise disjoint.  Returns the captured number,
the letter, and the remainder after the match. -/
def matchAt (cs : List Char) : Option (Nat × Char × List Char) :=
  if (cs.takeWhile isDigitChar).isEmpty then none
  else
    matchTail (cs.takeWhile isDigitChar)
      (afterSep ((cs.dropWhile isDigitChar).dropWhile jsWS))

/-- The `regex.exec` loop: find the leftmost match at or after the
current position, emit it, and resume after it.  Every match consumes
at least one character, so a fuel of the input length suffices. -/
def scanAux : Nat → List Char → List (Nat × Char)
  | 0, _ => []
  | _ + 1, [] => []
  | fuel + 1, c :: t =>
    match matchAt (c :: t) with
    | some (n, a, rest) => (n, a) :: scanAux fuel rest
    | none => scanAux fuel t

/-- All `(question, letter)` captures of the regex over the whole text,
in match order. -/
def scanText (text : String) : List (Nat × Char) :=
  scanAux text.toList.length text.toList

/-- One iteration of the `while ((match = regex.exec(text)))` loop:
`newKey[parseInt(match[1], 10)] = match[2].toUpperCase()`, so a later
match for the same question number overwrites the earlier entry. -/
def textStep (k : List (Int × Char)) (p : Nat × Char) : List (Int × Char) :=
  jsSet k (p.1 : Int) p.2.toUpper

/-- The `parseAnswerKeyFromText` function: at least one match replaces
the stored key with the accumulated `newKey` and clears the manual
field; zero matches fire the "Could not find valid answers" error and
change nothing. -/
def parseAnswerKeyFromText (text : String) (s : AppState) :
    AppState × Option AppError :=
  let ms := scanText text
  if 0 < ms.length then
    ({ s with answerKey := ms.foldl textStep [], manualKeyInput := "" }, none)
  else
    (s, some .noValidEntries)

/-- A concrete one-question session: sheet generated, question 1
answered A, and the manual key "A" typed — ready to check. -/
def regradeBase : AppState :=
  { selectResponse 1 'A' (generateOMRSheet (some 1) none none 0 initialState).1 with
      manualKeyInput := "A" }

/-- The same session after its first grading, with the manual key
retyped to "B" before a second click on the check button. -/
def regradeSecond : AppState :=
  { (handleCheckAnswers 10 regradeBase).1 with manualKeyInput := "B" }

/-! Helper lemmas about the embedded operations. -/

theorem lookup_cons (a q : Int) (b : Char) (l : List (Int × Char)) :
    ((a, b) :: l).lookup q = if q = a then some b else l.lookup q := by
  rcases eq_or_ne q a with h | h
  · subst h
    simp [List.lookup]
  · have hb : (q == a) = false := by
      simpa using h
    simp [List.lookup, hb, h]

theorem gradeLoop_counts (key : List (Int × Char)) (resp : List (Option Char))
    (n : Nat) :
    gradeLoop key resp n =
      ⟨(List.range n).countP (fun j => rowVerdict key resp (j + 1) == .correctV),
       (List.range n).countP (fun j => rowVerdict key resp (j + 1) == .incorrectV),
       (List.range n).countP (fun j => rowVerdict key resp (j + 1) == .unansweredV)⟩ := by
  induction n with
  | zero => rfl
  | succ n ih =>
    rw [gradeLoop, ih, List.range_succ]
    simp only [List.countP_append, List.countP_cons, List.countP_nil]
    unfold gradeStep rowVerdict
    rcases hr : resp.getD (n + 1 - 1) none with _ | v
    · simp [hr]
    · rcases hk : key.lookup ((n + 1 : Nat) : Int) with _ | w
      · simp [hr, hk]
      · rcases eq_or_ne w v with hv | hv
        · subst hv
          simp [hr, hk]
        · simp [hr, hk, hv]

theorem lookup_enumFrom_key (l : List Char) :
    ∀ (k i : Nat),
      ((l.enumFrom k).map (fun p => ((p.1 : Int) + 1, p.2))).lookup
          (((k + i : Nat) : Int) + 1) = l.get? i := by
  induction l with
  | nil => intro k i; rfl
  | cons c t ih =>
    intro k i
    cases i with
    | zero =>
      simp [List.enumFrom, lookup_cons]
    | succ j =>
      have hne : (((k + (j + 1) : Nat) : Int) + 1) ≠ ((k : Int) + 1) := by
        push_cast
        omega
      have hrw : ((k + 1 + j : Nat) : Int) = ((k + (j + 1) : Nat) : Int) := by
        push_cast
        omega
      have := ih (k + 1) j
      rw [hrw] at this
      simpa [List.enumFrom, lookup_cons, hne] using this

theorem lookup_keyFromString (m : String) (i : Nat) :
    (keyFromString m).lookup ((i : Int) + 1) = m.toList.get? i := by
  have h := lookup_enumFrom_key m.toList 0 i
  simpa [keyFromString, List.enum] using h

theorem mem_enumFrom_bounds (l : List Char) :
    ∀ (k : Nat) (p : Nat × Char), p ∈ l.enumFrom k →
      k ≤ p.1 ∧ p.1 < k + l.length := by
  induction l with
  | nil => intro k p hp; simp [List.enumFrom] at hp
  | cons c t ih =>
    intro k p hp
    rcases List.mem_cons.mp hp with h | h
    · subst h
      simp
    · have := ih (k + 1) p h
      constructor
      · omega
      · simpa [Nat.add_comm, Nat.add_left_comm] using this.2

theorem mem_keyFromString (m : String) (p : Int × Char)
    (hp : p ∈ keyFromString m) : 1 ≤ p.1 ∧ p.1 ≤ (m.length : Int) := by
  rcases List.mem_map.mp hp with ⟨x, hx, hfx⟩
  have hb := mem_enumFrom_bounds m.toList 0 x hx
  have hlen : m.toList.length = m.length := by
    simp
  rw [← hfx]
  constructor
  · omega
  · have : x.1 < m.length := by omega
    push_cast
    omega

theorem mem_jsSet (l : List (Int × Char)) (q : Int) (c : Char) (p : Int × Char)
    (hp : p ∈ jsSet l q c) : p = (q, c) ∨ p ∈ l := by
  unfold jsSet at hp
  split at hp
  · rcases List.mem_map.mp hp with ⟨x, hx, hfx⟩
    by_cases hq : x.1 = q
    · rw [if_pos hq] at hfx
      left
      exact hfx.symm
    · rw [if_neg hq] at hfx
      right
      exact hfx ▸ hx
  · rcases List.mem_append.mp hp with h | h
    · right
      exact h
    · left
      simpa using h

theorem foldl_excelStep_snd (rows : List (Option Int × String)) :
    ∀ acc : List (Int × Char) × Nat,
      (rows.foldl excelStep acc).2 =
        acc.2 + rows.countP (fun r => (excelRow r).isSome) := by
  induction rows with
  | nil => intro acc; simp
  | cons r t ih =>
    intro acc
    rw [List.foldl_cons, ih, List.countP_cons]
    unfold excelStep
    rcases h : excelRow r with _ | ⟨q, c⟩
    · simp [h]
    · simp [h]
      omega

theorem excelFold_count (rows : List (Option Int × String)) :
    (excelFold rows).2 = rows.countP (fun r => (excelRow r).isSome) := by
  simpa using foldl_excelStep_snd rows ([], 0)

theorem foldl_excelStep_mem (rows : List (Option Int × String)) :
    ∀ (acc : List (Int × Char) × Nat) (p : Int × Char),
      p ∈ (rows.foldl excelStep acc).1 →
        p ∈ acc.1 ∨ ∃ row ∈ rows, excelRow row = some p := by
  induction rows with
  | nil => intro acc p hp; simp at hp; exact Or.inl hp
  | cons r t ih =>
    intro acc p hp
    rw [List.foldl_cons] at hp
    rcases ih (excelStep acc r) p hp with h | ⟨row, hrow, hex⟩
    · unfold excelStep at h
      rcases hx : excelRow r with _ | ⟨q, c⟩
      · rw [hx] at h
        exact Or.inl h
      · rw [hx] at h
        rcases mem_jsSet acc.1 q c p h with h' | h'
        · right
          exact ⟨r, List.mem_cons_self r t, by rw [hx, h']⟩
        · exact Or.inl h'
    · right
      exact ⟨row, List.mem_cons_of_mem r hrow, hex⟩

theorem excelFold_mem (rows : List (Option Int × String)) (p : Int × Char)
    (hp : p ∈ (excelFold rows).1) : ∃ row ∈ rows, excelRow row = some p := by
  rcases foldl_excelStep_mem rows ([], 0) p hp with h | h
  · simp at h
  · exact h

theorem excelRow_choice (row : Option Int × String) (q : Int) (c : Char)
    (h : excelRow row = some (q, c)) : c = 'A' ∨ c = 'B' ∨ c = 'C' ∨ c = 'D' := by
  unfold excelRow at h
  rcases hrow : row.1 with _ | m
  · rw [hrow] at h
    simp at h
  · rw [hrow] at h
    dsimp only at h
    split at h
    · simp only [Option.some.injEq, Prod.mk.injEq] at h
      exact Or.inl h.2.symm
    · split at h
      · simp only [Option.some.injEq, Prod.mk.injEq] at h
        exact Or.inr (Or.inl h.2.symm)
      · split at h
        · simp only [Option.some.injEq, Prod.mk.injEq] at h
          exact Or.inr (Or.inr (Or.inl h.2.symm))
        · split at h
          · simp only [Option.some.injEq, Prod.mk.injEq] at h
            exact Or.inr (Or.inr (Or.inr h.2.symm))
          · simp at h

theorem matchTail_choice (ds r : List Char) (n : Nat) (a : Char)
    (rest : List Char) (h : matchTail ds r = some (n, a, rest)) :
    isChoiceLetter a = true := by
  unfold matchTail at h
  rcases r with _ | ⟨c, t⟩
  · simp at h
  · dsimp only at h
    split at h
    case isTrue hc =>
      rcases t with _ | ⟨d, t'⟩
      · simp only [Option.some.injEq, Prod.mk.injEq] at h
        rcases h with ⟨-, h₂, -⟩
        rw [← h₂]
        exact hc
      · dsimp only at h
        split at h
        · simp at h
        · simp only [Option.some.injEq, Prod.mk.injEq] at h
          rcases h with ⟨-, h₂, -⟩
          rw [← h₂]
          exact hc
    case isFalse => simp at h

theorem matchAt_choice (cs : List Char) (n : Nat) (a : Char) (rest : List Char)
    (h : matchAt cs = some (n, a, rest)) : isChoiceLetter a = true := by
  unfold matchAt at h
  split at h
  · exact absurd h (by simp)
  · exact matchTail_choice _ _ n a rest h

theorem scanAux_choice :
    ∀ (fuel : Nat) (cs : List Char) (p : Nat × Char), p ∈ scanAux fuel cs →
      isChoiceLetter p.2 = true := by
  intro fuel
  induction fuel with
  | zero => intro cs p hp; simp [scanAux] at hp
  | succ fuel ih =>
    intro cs p hp
    rcases cs with _ | ⟨c, t⟩
    · simp [scanAux] at hp
    · rw [scanAux] at hp
      rcases hm : matchAt (c :: t) with _ | ⟨m, a, rest⟩
      · rw [hm] at hp
        exact ih t p hp
      · rw [hm] at hp
        rcases List.mem_cons.mp hp with h | h
        · subst h
          exact matchAt_choice (c :: t) m a rest hm
        · exact ih rest p h

theorem scanText_choice (text : String) (p : Nat × Char)
    (hp : p ∈ scanText text) : isChoiceLetter p.2 = true :=
  scanAux_choice text.toList.length text.toList p hp

theorem foldl_textStep_mem (ms : List (Nat × Char)) :
    ∀ (acc : List (Int × Char)) (p : Int × Char),
      p ∈ ms.foldl textStep acc →
        p ∈ acc ∨ ∃ m ∈ ms, p = ((m.1 : Int), m.2.toUpper) := by
  induction ms with
  | nil => intro acc p hp; simp at hp; exact Or.inl hp
  | cons m t ih =>
    intro acc p hp
    rw [List.foldl_cons] at hp
    rcases ih (textStep acc m) p hp with h | ⟨x, hx, hex⟩
    · unfold textStep at h
      rcases mem_jsSet acc (m.1 : Int) m.2.toUpper p h with h' | h'
      · right
        exact ⟨m, List.mem_cons_self m t, h'⟩
      · exact Or.inl h'
    · right
      exact ⟨x, List.mem_cons_of_mem m hx, hex⟩

theorem isChoiceLetter_cases (c : Char) (h : isChoiceLetter c = true) :
    c = 'A' ∨ c = 'B' ∨ c = 'C' ∨ c = 'D' := by
  unfold isChoiceLetter at h
  simp only [Bool.and_eq_true, decide_eq_true_eq] at h
  obtain ⟨h1, h2⟩ := h
  have hlo : 65 ≤ c.val.toNat := h1
  have hhi : c.val.toNat ≤ 68 := h2
  have hval : c.val.toNat = 65 ∨ c.val.toNat = 66 ∨ c.val.toNat = 67 ∨
      c.val.toNat = 68 := by omega
  rcases hval with h | h | h | h
  · exact Or.inl (Char.ext (UInt32.ext h))
  · exact Or.inr (Or.inl (Char.ext (UInt32.ext h)))
  · exact Or.inr (Or.inr (Or.inl (Char.ext (UInt32.ext h))))
  · exact Or.inr (Or.inr (Or.inr (Char.ext (UInt32.ext h))))

theorem gradeSheet_answerKey (now : Int) (s : AppState) :
    (gradeSheet now s).answerKey = s.answerKey := rfl

theorem gradeSheet_responses (now : Int) (s : AppState) :
    (gradeSheet now s).responses = s.responses := rfl

theorem gradeSheet_manualKeyInput (now : Int) (s : AppState) :
    (gradeSheet now s).manualKeyInput = s.manualKeyInput := rfl

theorem gradeSheet_totalQuestions (now : Int) (s : AppState) :
    (gradeSheet now s).totalQuestions = s.totalQuestions := rfl

theorem gradeSheet_locked (now : Int) (s : AppState) :
    (gradeSheet now s).locked = true := rfl

theorem gradeSheet_lastResult (now : Int) (s : AppState) :
    (gradeSheet now s).lastResult =
      some ⟨gradeLoop s.answerKey s.responses s.totalQuestions,
        scoreDisplay s.totalQuestions s.correctMarks s.wrongMarks
          (gradeLoop s.answerKey s.responses s.totalQuestions)⟩ := rfl

/-- Case analysis of a check that ended in grading: either the manual
key was present with the right length and replaced the stored key, or
it was absent and the stored key had the right cardinality. -/
theorem handleCheck_graded (now : Int) (s : AppState)
    (h : (handleCheckAnswers now s).2 = .graded) :
    ((normalizeManual s.manualKeyInput).length ≠ 0 ∧
      (normalizeManual s.manualKeyInput).length = s.totalQuestions ∧
      handleCheckAnswers now s =
        (gradeSheet now
          { s with answerKey := keyFromString (normalizeManual s.manualKeyInput) },
         .graded)) ∨
    ((normalizeManual s.manualKeyInput).length = 0 ∧
      0 < s.answerKey.length ∧ s.answerKey.length = s.totalQuestions ∧
      handleCheckAnswers now s = (gradeSheet now s, .graded)) := by
  by_cases h1 : (normalizeManual s.manualKeyInput).length = 0
  · by_cases h2 : 0 < s.answerKey.length
    · by_cases h3 : s.answerKey.length = s.totalQuestions
      · right
        refine ⟨h1, h2, h3, ?_⟩
        simp only [handleCheckAnswers]
        rw [if_neg (not_not_intro h1), if_pos h2, if_neg (not_not_intro h3)]
      · exfalso
        have hout : (handleCheckAnswers now s).2 =
            .cardinalityMismatch s.totalQuestions s.answerKey.length := by
          simp only [handleCheckAnswers]
          rw [if_neg (not_not_intro h1), if_pos h2, if_pos h3]
        rw [hout] at h
        cases h
    · exfalso
      have hout : (handleCheckAnswers now s).2 = .confirmPrompt := by
        simp only [handleCheckAnswers]
        rw [if_neg (not_not_intro h1), if_neg h2]
      rw [hout] at h
      cases h
  · by_cases h2 : (normalizeManual s.manualKeyInput).length = s.totalQuestions
    · left
      refine ⟨h1, h2, ?_⟩
      simp only [handleCheckAnswers]
      rw [if_pos h1, if_neg (not_not_intro h2)]
    · exfalso
      have hout : (handleCheckAnswers now s).2 =
          .lengthMismatch s.totalQuestions (normalizeManual s.manualKeyInput).length := by
        simp only [handleCheckAnswers]
        rw [if_pos h1, if_pos h2]
      rw [hout] at h
      cases h

/-! Claim theorems. -/

/-- C8 counterexample: on the freshly loaded state, with no prior
`startTimer`, calling `stopTimer` when the wall clock reads 1000 ms
reports an elapsed time of 1000 ms, not the zero the claim promises:
`startTime` is initialised to `0`, so `Date.now() - startTime` is the
full current epoch time. -/
theorem stop_without_start_refuted :
    (stopTimer 1000 initialState).timeTaken = some 1000 ∧
    (stopTimer 1000 initialState).timeTaken ≠ some 0 := by
  refine ⟨rfl, ?_⟩
  decide

/-- C8 (amended): calling the timer's `stop()` without a prior
`start()` yields an elapsed duration equal to the current epoch instant
(`now - 0`, because `startTime` is initialised to `0`), which is zero
only when the wall clock itself reads zero. -/
theorem stop_without_start_amended (now : Int) :
    (stopTimer now initialState).timeTaken = some now ∧
    ((stopTimer now initialState).timeTaken = some 0 ↔ now = 0) := by
  constructor
  · simp [stopTimer, initialState]
  · simp [stopTimer, initialState]

/-- C8 witness: the amended statement evaluated at wall clock 7. -/
theorem stop_without_start_amended_witness :
    (stopTimer 7 initialState).timeTaken = some 7 :=
  (stop_without_start_amended 7).1

/-- C2: for every integer question count in [1,200] generation succeeds
and builds exactly that many unanswered rows; for `NaN` or a count
outside [1,200] it fails with the 1..200 configuration error and the
whole prior state is returned untouched (so an `Empty` state remains
`Empty`). -/
theorem generate_sheet_bounds (countInput : Option Int) (cm wm : Option ℚ)
    (now : Int) (s : AppState) :
    (∀ k : Int, countInput = some k → 1 ≤ k → k ≤ 200 →
        (generateOMRSheet countInput cm wm now s).2 = none ∧
        (generateOMRSheet countInput cm wm now s).1.totalQuestions = k.toNat ∧
        (generateOMRSheet countInput cm wm now s).1.responses =
          List.replicate k.toNat none ∧
        ((generateOMRSheet countInput cm wm now s).1.responses).length = k.toNat) ∧
    ((countInput = none ∨ ∃ k : Int, countInput = some k ∧ (k < 1 ∨ 200 < k)) →
        generateOMRSheet countInput cm wm now s = (s, some .configInvalid)) := by
  constructor
  · intro k hk hk1 hk2
    subst hk
    have hcond : ¬(k < 1 ∨ 200 < k) := by omega
    refine ⟨?_, ?_, ?_, ?_⟩ <;> simp [generateOMRSheet, hcond]
  · intro hbad
    rcases hbad with hnone | ⟨k, hk, hout⟩
    · subst hnone
      rfl
    · subst hk
      simp [generateOMRSheet, hout]

/-- C2 witness: count 3 succeeds with three unanswered rows; count 0
and non-numeric input fail with the configuration error and leave the
initial state intact. -/
theorem generate_sheet_bounds_witness :
    ((generateOMRSheet (some 3) none none 5 initialState).2 = none ∧
      (generateOMRSheet (some 3) none none 5 initialState).1.totalQuestions = (3 : Int).toNat ∧
      (generateOMRSheet (some 3) none none 5 initialState).1.responses =
        List.replicate (3 : Int).toNat none ∧
      ((generateOMRSheet (some 3) none none 5 initialState).1.responses).length =
        (3 : Int).toNat) ∧
    generateOMRSheet (some 0) none none 5 initialState =
      (initialState, some .configInvalid) ∧
    generateOMRSheet none none none 5 initialState =
      (initialState, some .configInvalid) := by
  refine ⟨?_, ?_, ?_⟩
  · exact (generate_sheet_bounds (some 3) none none 5 initialState).1 3 rfl
      (by norm_num) (by norm_num)
  · exact (generate_sheet_bounds (some 0) none none 5 initialState).2
      (Or.inr ⟨0, rfl, Or.inl (by norm_num)⟩)
  · exact (generate_sheet_bounds none none none 5 initialState).2 (Or.inl rfl)

/-- C7: a positive `wrongMarks` input is flipped to its negative inside
`generateOMRSheet` (configuration time); grading on a state whose
`correctMarks` is unset publishes the raw `correct / total` display;
and on a configured state the score uses the stored marks exactly as
stored — `correct*correctMarks + incorrect*wrongMarks` with no further
negation at scoring time. -/
theorem marking_scheme_config (now now' : Int) (s : AppState) (k : Int)
    (cm : Option ℚ) (w : ℚ) (hk1 : 1 ≤ k) (hk2 : k ≤ 200) (hw : 0 < w) :
    ((generateOMRSheet (some k) cm (some w) now s).1.wrongMarks = some (-w)) ∧
    (∀ st : AppState, st.correctMarks = none →
        (gradeSheet now' st).lastResult =
          some ⟨gradeLoop st.answerKey st.responses st.totalQuestions,
            .raw (gradeLoop st.answerKey st.responses st.totalQuestions).correct
              st.totalQuestions⟩) ∧
    (∀ (st : AppState) (c' w' : ℚ), st.correctMarks = some c' →
        st.wrongMarks = some w' →
        (gradeSheet now' st).lastResult =
          some ⟨gradeLoop st.answerKey st.responses st.totalQuestions,
            .marks
              ((gradeLoop st.answerKey st.responses st.totalQuestions).correct * c' +
                (gradeLoop st.answerKey st.responses st.totalQuestions).incorrect * w')
              (st.totalQuestions * c')
              ((gradeLoop st.answerKey st.responses st.totalQuestions).correct * c')
              ((gradeLoop st.answerKey st.responses st.totalQuestions).incorrect * w')⟩) := by
  refine ⟨?_, ?_, ?_⟩
  · have hcond : ¬(k < 1 ∨ 200 < k) := by omega
    simp [generateOMRSheet, hcond, normalizeWrong, hw]
  · intro st hnone
    rw [gradeSheet_lastResult, hnone]
    rfl
  · intro st c' w' hc hw'
    rw [gradeSheet_lastResult, hc, hw']
    rfl

/-- C7 witness: configuring wrong marks `1` on a 2-question sheet
stores `-1`; grading an unconfigured state shows raw counts; grading a
configured state applies the stored penalty unchanged. -/
theorem marking_scheme_config_witness :
    ((generateOMRSheet (some 2) (some 2) (some 1) 0 initialState).1.wrongMarks =
      some (-1)) ∧
    (gradeSheet 0 initialState).lastResult =
      some ⟨gradeLoop initialState.answerKey initialState.responses
              initialState.totalQuestions,
        .raw (gradeLoop initialState.answerKey initialState.responses
                initialState.totalQuestions).correct
          initialState.totalQuestions⟩ := by
  have h := marking_scheme_config 0 0 initialState 2 (some 2) 1
    (by norm_num) (by norm_num) (by norm_num)
  exact ⟨h.1, h.2.1 initialState rfl⟩

/-- C3: a typed key (as `handleCheckAnswers` reads it, trimmed and
uppercased) whose length equals `totalQuestions` is converted to the
key mapping question `i+1` to its `i`-th character; a length mismatch
fires the error carrying the expected count (`totalQuestions`) and the
actual count (the key's length) and leaves the whole state — in
particular the stored answer key — untouched. -/
theorem manual_key_parse (now : Int) (s : AppState)
    (hne : (normalizeManual s.manualKeyInput).length ≠ 0) :
    ((normalizeManual s.manualKeyInput).length = s.totalQuestions →
        (handleCheckAnswers now s).2 = .graded ∧
        (handleCheckAnswers now s).1.answerKey =
          keyFromString (normalizeManual s.manualKeyInput) ∧
        (∀ i : Nat,
          ((handleCheckAnswers now s).1.answerKey).lookup ((i : Int) + 1) =
            (normalizeManual s.manualKeyInput).toList.get? i)) ∧
    ((normalizeManual s.manualKeyInput).length ≠ s.totalQuestions →
        handleCheckAnswers now s =
          (s, .lengthMismatch s.totalQuestions
                (normalizeManual s.manualKeyInput).length)) := by
  constructor
  · intro hlen
    have hout : handleCheckAnswers now s =
        (gradeSheet now
          { s with answerKey := keyFromString (normalizeManual s.manualKeyInput) },
         .graded) := by
      simp only [handleCheckAnswers]
      rw [if_pos hne, if_neg (not_not_intro hlen)]
    rw [hout]
    refine ⟨rfl, rfl, ?_⟩
    intro i
    exact lookup_keyFromString (normalizeManual s.manualKeyInput) i
  · intro hlen
    simp only [handleCheckAnswers]
    rw [if_pos hne, if_pos hlen]

/-- C3 witness: with 4 questions, typing "ABCD" yields the key
{1:A, 2:B, 3:C, 4:D}; typing "ABC" fails with expected 4, actual 3. -/
theorem manual_key_parse_witness :
    ((handleCheckAnswers 0
        { initialState with totalQuestions := 4, manualKeyInput := "ABCD" }).1.answerKey =
      keyFromString (normalizeManual "ABCD")) ∧
    handleCheckAnswers 0
        { initialState with totalQuestions := 4, manualKeyInput := "ABC" } =
      ({ initialState with totalQuestions := 4, manualKeyInput := "ABC" },
       .lengthMismatch 4 3) := by
  constructor
  · exact ((manual_key_parse 0
      { initialState with totalQuestions := 4, manualKeyInput := "ABCD" }
      (by decide)).1 (by decide)).2.1
  · exact (manual_key_parse 0
      { initialState with totalQuestions := 4, manualKeyInput := "ABC" }
      (by decide)).2 (by decide)

/-- C5 counterexample: on the spec's own example text
"1. A 2: b 3-C 10 D" the scan finds only the uppercase matches — the
regex class `[A-D]` carries no case-insensitive flag, so "2: b" never
matches — and the parsed key is {1:A, 3:C, 10:D} with no entry for
question 2, not the claimed {1:A, 2:B, 3:C, 10:D}. -/
theorem freeText_spec_example_refuted :
    scanText "1. A 2: b 3-C 10 D" = [(1, 'A'), (3, 'C'), (10, 'D')] ∧
    (parseAnswerKeyFromText "1. A 2: b 3-C 10 D" initialState).1.answerKey =
      [((1 : Int), 'A'), ((3 : Int), 'C'), ((10 : Int), 'D')] ∧
    ((parseAnswerKeyFromText "1. A 2: b 3-C 10 D" initialState).1.answerKey).lookup
        (2 : Int) = none := by
  refine ⟨?_, ?_, ?_⟩ <;> rfl

/-- C5 (amended): the scan collects every word-bounded occurrence of an
integer, an optional colon/period/hyphen separator, optional
whitespace, and a single UPPERCASE letter A–D (lowercase letters do not
match; the post-match `toUpperCase` is a no-op); later matches for a
duplicate question number overwrite earlier ones; parsing fails with
`NoValidEntries` exactly when there are zero matches; and the spec's
example text therefore yields {1:A, 3:C, 10:D}. -/
theorem freeText_parse_amended (text : String) (s : AppState) :
    ((parseAnswerKeyFromText text s).2 = some .noValidEntries ↔
        scanText text = []) ∧
    (scanText text = [] →
        parseAnswerKeyFromText text s = (s, some .noValidEntries)) ∧
    (∀ p ∈ scanText text, isChoiceLetter p.2 = true) ∧
    scanText "1. A 2: b 3-C 10 D" = [(1, 'A'), (3, 'C'), (10, 'D')] ∧
    (parseAnswerKeyFromText "1 A 1 B" initialState).1.answerKey =
      [((1 : Int), 'B')] := by
  refine ⟨?_, ?_, ?_, ?_, ?_⟩
  · rcases hscan : scanText text with _ | ⟨p, t⟩
    · simp [parseAnswerKeyFromText, hscan]
    · simp [parseAnswerKeyFromText, hscan]
  · intro hscan
    simp [parseAnswerKeyFromText, hscan]
  · exact fun p hp => scanText_choice text p hp
  · rfl
  · rfl

/-- C5 witness: a text with no occurrence of the pattern fails with the
no-valid-entries error and leaves the state unchanged. -/
theorem freeText_parse_amended_witness :
    parseAnswerKeyFromText "no answers in here" initialState =
      (initialState, some .noValidEntries) :=
  (freeText_parse_amended "no answers in here" initialState).2.1 rfl

/-- C4: a tabular row is accepted exactly when its first column parsed
as an integer and its second column, trimmed and uppercased, is one of
A/B/C/D; `parsedCount` counts the accepted rows while the malformed
ones are skipped without aborting; parsing succeeds iff at least one
row was accepted and otherwise fails with `NoValidEntries` leaving the
state unchanged; every stored entry comes from an accepted row; and the
spec's example rows [[1,"a"],["x","B"],[2,"c"]] yield the key
{1:A, 2:C} with `parsedCount = 2`. -/
theorem excel_parse_rows (rows : List (Option Int × String)) (s : AppState) :
    ((excelFold rows).2 = rows.countP (fun r => (excelRow r).isSome)) ∧
    (∀ row : Option Int × String,
        (excelRow row).isSome = true ↔
          (∃ q : Int, row.1 = some q) ∧
          (jsToUpper (jsTrim row.2) = "A" ∨ jsToUpper (jsTrim row.2) = "B" ∨
            jsToUpper (jsTrim row.2) = "C" ∨ jsToUpper (jsTrim row.2) = "D")) ∧
    ((parseAnswerKeyFromExcel rows s).2 = none ↔
        0 < rows.countP (fun r => (excelRow r).isSome)) ∧
    (rows.countP (fun r => (excelRow r).isSome) = 0 →
        parseAnswerKeyFromExcel rows s = (s, some .noValidEntries)) ∧
    (∀ p : Int × Char, p ∈ (excelFold rows).1 →
        ∃ row ∈ rows, excelRow row = some p) ∧
    excelFold [(some 1, "a"), (none, "B"), (some 2, "c")] =
      ([((1 : Int), 'A'), ((2 : Int), 'C')], 2) := by
  have hcnt := excelFold_count rows
  refine ⟨hcnt, ?_, ?_, ?_, ?_, ?_⟩
  · intro row
    unfold excelRow
    rcases hrow : row.1 with _ | q
    · simp [hrow]
    · dsimp only
      by_cases hA : jsToUpper (jsTrim row.2) = "A"
      · simp [hA]
      · by_cases hB : jsToUpper (jsTrim row.2) = "B"
        · simp [hA, hB]
        · by_cases hC : jsToUpper (jsTrim row.2) = "C"
          · simp [hA, hB, hC]
          · by_cases hD : jsToUpper (jsTrim row.2) = "D"
            · simp [hA, hB, hC, hD]
            · simp [hA, hB, hC, hD]
  · by_cases hc : 0 < (excelFold rows).2
    · constructor
      · intro _
        rw [← hcnt]
        exact hc
      · intro _
        simp [parseAnswerKeyFromExcel, hc]
    · constructor
      · intro hcontra
        exfalso
        simp [parseAnswerKeyFromExcel, hc] at hcontra
      · intro hpos
        rw [← hcnt] at hpos
        exact absurd hpos hc
  · intro hzero
    have hc : ¬0 < (excelFold rows).2 := by
      rw [hcnt, hzero]
      exact lt_irrefl 0
    simp [parseAnswerKeyFromExcel, hc]
  · exact fun p hp => excelFold_mem rows p hp
  · rfl

/-- C4 witness: the success iff-direction and the failure case applied
to concrete row lists. -/
theorem excel_parse_rows_witness :
    ((parseAnswerKeyFromExcel [(some 1, "a"), (none, "B"), (some 2, "c")]
        initialState).2 = none) ∧
    parseAnswerKeyFromExcel [(none, "Q")] initialState =
      (initialState, some .noValidEntries) := by
  constructor
  · exact (excel_parse_rows [(some 1, "a"), (none, "B"), (some 2, "c")]
      initialState).2.2.1.mpr (by decide)
  · exact (excel_parse_rows [(none, "Q")] initialState).2.2.2.1 (by decide)

/-- C1: grading classifies each question as Unanswered exactly when no
response is recorded, Correct exactly when the response equals the key
entry, and Incorrect otherwise; the tallies published by `gradeSheet`
count those verdicts over questions 1..totalQuestions; with a
configured scheme the published totals are
`totalScore = correct*correctMarks + incorrect*(wrongMarks or 0)` and
`maxScore = questionCount*correctMarks`; and on the spec's example —
key {1:A, 2:B, 3:C}, responses {1:A, 2:C, 3:unanswered},
correctMarks 2, wrongMarks -1 — the result is correct 1, incorrect 1,
unanswered 1, totalScore 1, maxScore 6. -/
theorem gradeSheet_classifies_and_scores (now : Int) (s : AppState) (c : ℚ)
    (hcm : s.correctMarks = some c)
    (hcov : ∀ i : Nat, 1 ≤ i → i ≤ s.totalQuestions →
      ((s.answerKey).lookup (i : Int)).isSome = true) :
    (∀ i : Nat, 1 ≤ i → i ≤ s.totalQuestions →
        ((rowVerdict s.answerKey s.responses i = .unansweredV ↔
            s.responses.getD (i - 1) none = none) ∧
          (rowVerdict s.answerKey s.responses i = .correctV ↔
            ∃ v, s.responses.getD (i - 1) none = some v ∧
              (s.answerKey).lookup (i : Int) = some v) ∧
          (rowVerdict s.answerKey s.responses i = .incorrectV ↔
            ∃ v, s.responses.getD (i - 1) none = some v ∧
              (s.answerKey).lookup (i : Int) ≠ some v))) ∧
    ((gradeLoop s.answerKey s.responses s.totalQuestions).correct =
        (List.range s.totalQuestions).countP
          (fun j => rowVerdict s.answerKey s.responses (j + 1) == .correctV) ∧
      (gradeLoop s.answerKey s.responses s.totalQuestions).incorrect =
        (List.range s.totalQuestions).countP
          (fun j => rowVerdict s.answerKey s.responses (j + 1) == .incorrectV) ∧
      (gradeLoop s.answerKey s.responses s.totalQuestions).unanswered =
        (List.range s.totalQuestions).countP
          (fun j => rowVerdict s.answerKey s.responses (j + 1) == .unansweredV)) ∧
    ((gradeSheet now s).lastResult =
        some ⟨gradeLoop s.answerKey s.responses s.totalQuestions,
          .marks
            ((gradeLoop s.answerKey s.responses s.totalQuestions).correct * c +
              (gradeLoop s.answerKey s.responses s.totalQuestions).incorrect *
                wrongOrZero s.wrongMarks)
            (s.totalQuestions * c)
            ((gradeLoop s.answerKey s.responses s.totalQuestions).correct * c)
            ((gradeLoop s.answerKey s.responses s.totalQuestions).incorrect *
              wrongOrZero s.wrongMarks)⟩) ∧
    gradeLoop [((1 : Int), 'A'), ((2 : Int), 'B'), ((3 : Int), 'C')]
        [some 'A', some 'C', none] 3 = ⟨1, 1, 1⟩ ∧
    scoreDisplay 3 (some 2) (some (-1)) ⟨1, 1, 1⟩ = .marks 1 6 2 (-1) := by
  refine ⟨?_, ?_, ?_, ?_, ?_⟩
  · intro i h1 h2
    unfold rowVerdict
    rcases hr : s.responses.getD (i - 1) none with _ | v
    · refine ⟨?_, ?_, ?_⟩ <;> simp
    · by_cases hk : (s.answerKey).lookup (i : Int) = some v
      · refine ⟨?_, ?_, ?_⟩ <;> simp [hk]
      · refine ⟨?_, ?_, ?_⟩ <;> simp [hk]
  · refine ⟨?_, ?_, ?_⟩ <;> rw [gradeLoop_counts]
  · rw [gradeSheet_lastResult, hcm]
    rfl
  · rfl
  · unfold scoreDisplay
    dsimp only
    norm_num [wrongOrZero]

/-- C1 witness: the theorem applied to the spec's example sheet. -/
theorem gradeSheet_classifies_and_scores_witness :
    (gradeSheet 0
      { initialState with
          totalQuestions := 3
          correctMarks := some 2
          wrongMarks := some (-1)
          answerKey := [((1 : Int), 'A'), ((2 : Int), 'B'), ((3 : Int), 'C')]
          responses := [some 'A', some 'C', none] }).lastResult =
      some ⟨⟨1, 1, 1⟩, .marks 1 6 2 (-1)⟩ := by
  have h := gradeSheet_classifies_and_scores 0
    { initialState with
        totalQuestions := 3
        correctMarks := some 2
        wrongMarks := some (-1)
        answerKey := [((1 : Int), 'A'), ((2 : Int), 'B'), ((3 : Int), 'C')]
        responses := [some 'A', some 'C', none] } 2 rfl
    (by
      intro i h1 h2
      have h2' : i ≤ 3 := h2
      interval_cases i <;> decide)
  refine h.2.2.1.trans ?_
  have hTally :
      gradeLoop [((1 : Int), 'A'), ((2 : Int), 'B'), ((3 : Int), 'C')]
        [some 'A', some 'C', none] 3 = ⟨1, 1, 1⟩ := by
    decide
  rw [show ({ initialState with
      totalQuestions := 3
      correctMarks := some 2
      wrongMarks := some (-1)
      answerKey := [((1 : Int), 'A'), ((2 : Int), 'B'), ((3 : Int), 'C')]
      responses := [some 'A', some 'C', none] } : AppState).answerKey =
    [((1 : Int), 'A'), ((2 : Int), 'B'), ((3 : Int), 'C')] from rfl]
  dsimp only
  rw [hTally]
  dsimp only
  norm_num [wrongOrZero]

/-- C6 counterexample: on a 3-question sheet, uploading the tabular row
[500, "A"] stores the key {500: A} — question number 500 is far outside
1..3, yet it is stored, because `parseAnswerKeyFromExcel` never checks
the parsed number against `totalQuestions`; and typing the manual key
"XYZ" stores {1:X, 2:Y, 3:Z} — values outside {A,B,C,D} — because the
manual-key path never validates the characters. -/
theorem answerKey_invariant_refuted :
    ((parseAnswerKeyFromExcel [(some 500, "A")]
        (generateOMRSheet (some 3) none none 0 initialState).1).1.answerKey =
      [((500 : Int), 'A')]) ∧
    ((generateOMRSheet (some 3) none none 0 initialState).1.totalQuestions = 3) ∧
    ¬((500 : Int) ≤ 3) ∧
    ((handleCheckAnswers 0
        { (generateOMRSheet (some 3) none none 0 initialState).1 with
            manualKeyInput := "XYZ" }).1.answerKey =
      [((1 : Int), 'X'), ((2 : Int), 'Y'), ((3 : Int), 'Z')]) ∧
    ¬('X' = 'A' ∨ 'X' = 'B' ∨ 'X' = 'C' ∨ 'X' = 'D') := by
  refine ⟨rfl, rfl, by decide, rfl, by decide⟩

/-- C6 (amended): the tabular and free-text ingestion paths store only
values in {A,B,C,D} but do not restrict the stored question numbers to
1..questionCount; the typed-key path stores exactly the question
numbers 1..questionCount but does not restrict the stored values to
{A,B,C,D}. -/
theorem answerKey_invariant_amended (rows : List (Option Int × String))
    (text : String) (now : Int) (s : AppState) :
    (∀ p : Int × Char, p ∈ (excelFold rows).1 →
        p.2 = 'A' ∨ p.2 = 'B' ∨ p.2 = 'C' ∨ p.2 = 'D') ∧
    (∀ p : Int × Char, p ∈ (scanText text).foldl textStep [] →
        p.2 = 'A' ∨ p.2 = 'B' ∨ p.2 = 'C' ∨ p.2 = 'D') ∧
    ((normalizeManual s.manualKeyInput).length ≠ 0 →
        (normalizeManual s.manualKeyInput).length = s.totalQuestions →
        ∀ p : Int × Char, p ∈ (handleCheckAnswers now s).1.answerKey →
          1 ≤ p.1 ∧ p.1 ≤ (s.totalQuestions : Int)) := by
  refine ⟨?_, ?_, ?_⟩
  · intro p hp
    rcases excelFold_mem rows p hp with ⟨row, _, hex⟩
    exact excelRow_choice row p.1 p.2 hex
  · intro p hp
    rcases foldl_textStep_mem (scanText text) [] p hp with h | ⟨m, hm, hpe⟩
    · simp at h
    · have hc := scanText_choice text m hm
      rcases isChoiceLetter_cases m.2 hc with h | h | h | h
      · left
        rw [hpe, h]
        exact rfl
      · right; left
        rw [hpe, h]
        exact rfl
      · right; right; left
        rw [hpe, h]
        exact rfl
      · right; right; right
        rw [hpe, h]
        exact rfl
  · intro h1 h2 p hp
    have hout : (handleCheckAnswers now s).1.answerKey =
        keyFromString (normalizeManual s.manualKeyInput) := by
      simp only [handleCheckAnswers]
      rw [if_pos h1, if_neg (not_not_intro h2)]
      rfl
    rw [hout] at hp
    have hb := mem_keyFromString (normalizeManual s.manualKeyInput) p hp
    rw [h2] at hb
    exact hb

/-- C6 witness: the typed-path bound applied to the key "ABCD" on a
4-question sheet, at the stored entry (1, A). -/
theorem answerKey_invariant_amended_witness :
    1 ≤ ((1 : Int), 'A').1 ∧ ((1 : Int), 'A').1 ≤ ((4 : Nat) : Int) := by
  have h := (answerKey_invariant_amended [] "" 0
      { initialState with totalQuestions := 4, manualKeyInput := "ABCD" }).2.2
      (by decide) (by decide) ((1 : Int), 'A') (by decide)
  exact h

/-- C10: at check time a non-empty typed key of the right length
replaces the stored answer key wholesale — the result is
`keyFromString` of the typed key, whatever key was stored before, so
the two sources are never merged — and, symmetrically, a successful
tabular or free-text parse replaces the key with the parsed entries
alone and clears the manual-key field. -/
theorem key_source_precedence (now : Int) (s : AppState)
    (rows : List (Option Int × String)) (text : String)
    (hm : (normalizeManual s.manualKeyInput).length ≠ 0)
    (hlen : (normalizeManual s.manualKeyInput).length = s.totalQuestions) :
    ((handleCheckAnswers now s).1.answerKey =
        keyFromString (normalizeManual s.manualKeyInput)) ∧
    (∀ priorKey : List (Int × Char),
        (handleCheckAnswers now { s with answerKey := priorKey }).1.answerKey =
          keyFromString (normalizeManual s.manualKeyInput)) ∧
    (0 < (excelFold rows).2 →
        (parseAnswerKeyFromExcel rows s).1.manualKeyInput = "" ∧
        (parseAnswerKeyFromExcel rows s).1.answerKey = (excelFold rows).1) ∧
    (0 < (scanText text).length →
        (parseAnswerKeyFromText text s).1.manualKeyInput = "" ∧
        (parseAnswerKeyFromText text s).1.answerKey =
          (scanText text).foldl textStep []) := by
  refine ⟨?_, ?_, ?_, ?_⟩
  · simp only [handleCheckAnswers]
    rw [if_pos hm, if_neg (not_not_intro hlen)]
    rfl
  · intro priorKey
    simp only [handleCheckAnswers]
    rw [if_pos hm, if_neg (not_not_intro hlen)]
    rfl
  · intro hpos
    constructor <;> simp [parseAnswerKeyFromExcel, hpos]
  · intro hpos
    constructor <;> simp [parseAnswerKeyFromText, hpos]

/-- C10 witness: with key "A" typed over a stored key {1:D}, checking
stores {1:A}; a successful tabular parse of [[1,"b"]] clears the manual
field and stores exactly the parsed key. -/
theorem key_source_precedence_witness :
    ((handleCheckAnswers 0
        { initialState with
            totalQuestions := 1
            manualKeyInput := "A"
            answerKey := [((1 : Int), 'D')] }).1.answerKey =
      keyFromString (normalizeManual "A")) ∧
    ((parseAnswerKeyFromExcel [(some 1, "b")]
        { initialState with
            totalQuestions := 1
            manualKeyInput := "A"
            answerKey := [((1 : Int), 'D')] }).1.manualKeyInput = "") ∧
    ((parseAnswerKeyFromExcel [(some 1, "b")]
        { initialState with
            totalQuestions := 1
            manualKeyInput := "A"
            answerKey := [((1 : Int), 'D')] }).1.answerKey =
      (excelFold [(some 1, "b")]).1) := by
  have h := key_source_precedence 0
    { initialState with
        totalQuestions := 1
        manualKeyInput := "A"
        answerKey := [((1 : Int), 'D')] }
    [(some 1, "b")] "" (by decide) (by decide)
  exact ⟨h.1, (h.2.2.1 (by decide)).1, (h.2.2.1 (by decide)).2⟩

/-- C9 counterexample: nothing guards `handleCheckAnswers` against an
already-graded sheet.  On a one-question session graded once against
the manual key "A" (result: 1 correct), retyping the manual key to "B"
and clicking check again grades a second time — the second attempt is
neither a no-op nor rejected, and it produces a different result
(0 correct, 1 incorrect). -/
theorem regrade_possible_refuted :
    (handleCheckAnswers 10 regradeBase).2 = .graded ∧
    (handleCheckAnswers 10 regradeBase).1.isGraded = true ∧
    (handleCheckAnswers 20 regradeSecond).2 = .graded ∧
    (handleCheckAnswers 10 regradeBase).1.lastResult =
      some ⟨⟨1, 0, 0⟩, .raw 1 1⟩ ∧
    (handleCheckAnswers 20 regradeSecond).1.lastResult =
      some ⟨⟨0, 1, 0⟩, .raw 0 1⟩ ∧
    (handleCheckAnswers 20 regradeSecond).1.lastResult ≠
      (handleCheckAnswers 10 regradeBase).1.lastResult := by
  refine ⟨?_, ?_, ?_, ?_, ?_, ?_⟩ <;> decide

/-- C9 (amended): after a first grading the responses are frozen — the
sheet is locked, response clicks are ignored, and grading itself never
mutates the ResponseSet — but a second check is not rejected: it grades
again, and with the key inputs left unchanged it recomputes the
identical result. -/
theorem regrade_amended (now₁ now₂ : Int) (s : AppState)
    (h : (handleCheckAnswers now₁ s).2 = .graded) :
    ((handleCheckAnswers now₁ s).1.locked = true) ∧
    (∀ (i : Nat) (c : Char),
        selectResponse i c (handleCheckAnswers now₁ s).1 =
          (handleCheckAnswers now₁ s).1) ∧
    ((handleCheckAnswers now₁ s).1.responses = s.responses) ∧
    ((handleCheckAnswers now₂ (handleCheckAnswers now₁ s).1).2 = .graded) ∧
    ((handleCheckAnswers now₂ (handleCheckAnswers now₁ s).1).1.lastResult =
        (handleCheckAnswers now₁ s).1.lastResult) ∧
    ((handleCheckAnswers now₂ (handleCheckAnswers now₁ s).1).1.responses =
        s.responses) := by
  rcases handleCheck_graded now₁ s h with ⟨h1, h2, heq⟩ | ⟨h1, h2, h3, heq⟩
  · have hfst : (handleCheckAnswers now₁ s).1 =
        gradeSheet now₁
          { s with answerKey := keyFromString (normalizeManual s.manualKeyInput) } := by
      rw [heq]
    have h1' : (normalizeManual
        (gradeSheet now₁
          { s with answerKey := keyFromString (normalizeManual s.manualKeyInput) }).manualKeyInput).length ≠ 0 := h1
    have h2' : (normalizeManual
        (gradeSheet now₁
          { s with answerKey := keyFromString (normalizeManual s.manualKeyInput) }).manualKeyInput).length =
        (gradeSheet now₁
          { s with answerKey := keyFromString (normalizeManual s.manualKeyInput) }).totalQuestions := h2
    have hsecond : handleCheckAnswers now₂
        (gradeSheet now₁
          { s with answerKey := keyFromString (normalizeManual s.manualKeyInput) }) =
        (gradeSheet now₂
          { (gradeSheet now₁
              { s with answerKey := keyFromString (normalizeManual s.manualKeyInput) }) with
              answerKey := keyFromString (normalizeManual
                (gradeSheet now₁
                  { s with answerKey := keyFromString (normalizeManual s.manualKeyInput) }).manualKeyInput) },
         .graded) := by
      simp only [handleCheckAnswers]
      rw [if_pos h1', if_neg (not_not_intro h2')]
    refine ⟨?_, ?_, ?_, ?_, ?_, ?_⟩
    · rw [hfst]
      rfl
    · intro i c
      rw [hfst]
      simp [selectResponse, gradeSheet_locked]
    · rw [hfst]
      rfl
    · rw [hfst, hsecond]
    · rw [hfst, hsecond]
      rfl
    · rw [hfst, hsecond]
      rfl
  · have hfst : (handleCheckAnswers now₁ s).1 = gradeSheet now₁ s := by
      rw [heq]
    have h1' : (normalizeManual (gradeSheet now₁ s).manualKeyInput).length = 0 := h1
    have h2' : 0 < (gradeSheet now₁ s).answerKey.length := h2
    have h3' : (gradeSheet now₁ s).answerKey.length =
        (gradeSheet now₁ s).totalQuestions := h3
    have hsecond : handleCheckAnswers now₂ (gradeSheet now₁ s) =
        (gradeSheet now₂ (gradeSheet now₁ s), .graded) := by
      simp only [handleCheckAnswers]
      rw [if_neg (not_not_intro h1'), if_pos h2', if_neg (not_not_intro h3')]
    refine ⟨?_, ?_, ?_, ?_, ?_, ?_⟩
    · rw [hfst]
      rfl
    · intro i c
      rw [hfst]
      simp [selectResponse, gradeSheet_locked]
    · rw [hfst]
      rfl
    · rw [hfst, hsecond]
    · rw [hfst, hsecond]
      rfl
    · rw [hfst, hsecond]
      rfl

/-- C9 witness: the amended statement on the concrete one-question
session graded against the unchanged manual key "A". -/
theorem regrade_amended_witness :
    ((handleCheckAnswers 20 (handleCheckAnswers 10 regradeBase).1).2 = .graded) ∧
    ((handleCheckAnswers 20 (handleCheckAnswers 10 regradeBase).1).1.lastResult =
        (handleCheckAnswers 10 regradeBase).1.lastResult) ∧
    ((handleCheckAnswers 10 regradeBase).1.locked = true) := by
  have h := regrade_amended 10 20 regradeBase (by decide)
  exact ⟨h.2.2.2.1, h.2.2.2.2.1, h.1⟩

end OMR
